import Mathlib

/-!
Verification of the gemini-coder server (src/server.py): a shallow embedding
of its path sandbox, generation retry loop, output sanitization, diff engine,
and session/persistence state machine, with theorems settling the spec claims.

Python strings are modelled as Lean `String` (a wrapper around `List Char`);
Python string primitives (`strip`, `split`, `startswith`, …) are modelled by
structurally recursive Lean functions with identical semantics so that every
definition evaluates by kernel reduction.
-/

/-- ASCII whitespace stripped by Python `str.strip()`:
space, tab, newline, carriage return, vertical tab, form feed. -/
def isPyWS (c : Char) : Bool :=
  c = ' ' || c = '\t' || c = '\n' || c = '\r' || c = Char.ofNat 11 || c = Char.ofNat 12

/-- Python `str.strip()` on the underlying character list. -/
def pyStripL (l : List Char) : List Char :=
  ((l.dropWhile isPyWS).reverse.dropWhile isPyWS).reverse

/-- Python `str.strip()`. -/
def pyStrip (s : String) : String := ⟨pyStripL s.data⟩

/-- Python `str.split(c)` for a one-character separator: always returns at
least one (possibly empty) piece; `"".split(c) == [""]`, `"a\n".split("\n")
== ["a", ""]`. -/
def splitChar (c : Char) : List Char → List (List Char)
  | [] => [[]]
  | x :: xs =>
    if x = c then [] :: splitChar c xs
    else
      match splitChar c xs with
      | [] => [[x]]
      | y :: ys => (x :: y) :: ys

/-- Python `c.join(pieces)` for a one-character separator. -/
def joinChar (c : Char) (ls : List (List Char)) : List Char :=
  List.intercalate [c] ls

/-- The markdown code-fence delimiter checked by `generate_content`. -/
def fenceL : List Char := "```".data

/-- The response cleanup in `generate_content` (server.py lines 172-182):
`cleaned = response.text.strip()`; if it starts and ends with a fence, drop
the first and last line (or yield `""` when there is a single line). -/
def sanitize (t : String) : String :=
  let cleaned := pyStripL t.data
  if fenceL.isPrefixOf cleaned && fenceL.isSuffixOf cleaned then
    let lines := splitChar '\n' cleaned
    if lines.length > 1 then ⟨joinChar '\n' ((lines.drop 1).dropLast)⟩ else ""
  else ⟨cleaned⟩

/-- One backend call's outcome, classified exactly by the branches of the
retry loop in `generate_content` (server.py lines 161-204): truthy
`response.text`; a `prompt_feedback.block_reason`; a candidate whose
`finish_reason` is not `STOP`; the ambiguous empty response; or an exception
raised by the call. -/
inductive GenAttempt where
  | text (t : String)
  | blocked (reason : String)
  | abnormal (reason : String)
  | emptyResp
  | exn
deriving DecidableEq, Repr

/-- What a full run of `generate_content` produced: the returned
`Optional[str]`, how many backend calls were made, and how many
`time.sleep(1)` units elapsed. -/
structure GenOutcome where
  result : Option String
  calls : Nat
  sleeps : Nat
deriving DecidableEq, Repr

/-- The literal string `generate_content` returns on a safety block
(server.py line 188). -/
def blockMessage (reason : String) : String :=
  "Error: Content generation blocked by API safety filters (Reason: " ++ reason
    ++ "). Please revise your prompt or instructions."

/-- The literal string `generate_content` returns on an abnormal finish
(server.py line 192). -/
def abnormalMessage (reason : String) : String :=
  "Error: Content generation stopped unexpectedly (Reason: " ++ reason ++ ")."

/-- server.py line 30. -/
def MAX_GENERATE_RETRIES : Nat := 3

/-- The retry loop of `generate_content`, recursing on the remaining retry
budget (`MAX_GENERATE_RETRIES - retries`).  The backend is a map from the
call index to that call's outcome.  Text, block, and abnormal-finish
responses return immediately (text after fence cleanup, the other two as
formatted `"Error: ..."` strings through the same `str` return channel); an
empty response consumes a retry with no sleep; an exception consumes a retry
and sleeps one unit (server.py lines 161-204). -/
def generateAux (backend : Nat → GenAttempt) : Nat → Nat → Nat → GenOutcome
  | 0, calls, sleeps => ⟨none, calls, sleeps⟩
  | remaining + 1, calls, sleeps =>
    match backend calls with
    | .text t => ⟨some (sanitize t), calls + 1, sleeps⟩
    | .blocked r => ⟨some (blockMessage r), calls + 1, sleeps⟩
    | .abnormal r => ⟨some (abnormalMessage r), calls + 1, sleeps⟩
    | .emptyResp => generateAux backend remaining (calls + 1) sleeps
    | .exn => generateAux backend remaining (calls + 1) (sleeps + 1)

/-- `generate_content` (server.py lines 121-204), abstracted over the
backend; the prompt-assembly part does not affect the result/state and is
omitted.  Returns `none` after exhausting retries. -/
def generate_content (backend : Nat → GenAttempt) : GenOutcome :=
  generateAux backend MAX_GENERATE_RETRIES 0 0

/-! POSIX path primitives used by `_get_safe_path`, translated from
CPython's `posixpath.join` / `posixpath.normpath` / `posixpath.abspath`. -/

/-- `posixpath.join(a, b)` for two components. -/
def posixJoin (a b : String) : String :=
  if b.data.head? = some '/' then b
  else if a.data = [] then ⟨a.data ++ b.data⟩
  else if a.data.getLast? = some '/' then ⟨a.data ++ b.data⟩
  else ⟨a.data ++ '/' :: b.data⟩

/-- One step of `posixpath.normpath`'s component loop: skip `''` and `'.'`;
append a component unless it is `'..'` that should pop; `'..'` at an
absolute root is dropped. -/
def normStep (slashes : Nat) (acc : List (List Char)) (comp : List Char) :
    List (List Char) :=
  if comp = [] ∨ comp = ['.'] then acc
  else if comp ≠ ['.', '.'] ∨ (slashes = 0 ∧ acc = [])
      ∨ acc.getLast? = some ['.', '.'] then acc ++ [comp]
  else if acc ≠ [] then acc.dropLast
  else acc

/-- `posixpath.normpath`. -/
def normpath (p : String) : String :=
  if p.data = [] then "."
  else
    let slashes : Nat :=
      if p.data.head? = some '/' then
        if "//".data.isPrefixOf p.data && !("///".data.isPrefixOf p.data) then 2
        else 1
      else 0
    let comps := splitChar '/' p.data
    let newComps := comps.foldl (normStep slashes) []
    let res := List.replicate slashes '/' ++ joinChar '/' newComps
    if res = [] then "." else ⟨res⟩

/-- `posixpath.abspath` with an explicit current working directory. -/
def abspath (cwd p : String) : String :=
  normpath (if p.data.head? = some '/' then p else posixJoin cwd p)

/-- `_get_safe_path` (server.py lines 50-75): reject empty arguments,
absolutize the root, join and absolutize the requested path, and accept it
iff the result string starts with the absolutized root.  Note the code uses
`os.path.abspath` (no symlink resolution) and a bare `str.startswith`
containment test. -/
def get_safe_path (cwd project_root relative_path : String) : Option String :=
  if project_root = "" ∨ relative_path = "" then none
  else
    let absRoot := abspath cwd project_root
    let requested := abspath cwd (posixJoin absRoot relative_path)
    if absRoot.data.isPrefixOf requested.data then some requested else none

/-! The session, filesystem, and sidecar-persistence model. -/

/-- Association-list lookup keyed by strings (Python dict read). -/
def lookupA {α : Type} : List (String × α) → String → Option α
  | [], _ => none
  | (k', v) :: rest, k => if k' = k then some v else lookupA rest k

/-- Remove a key (Python `dict.pop(k, None)`). -/
def eraseA {α : Type} (m : List (String × α)) (k : String) : List (String × α) :=
  m.filter (fun p => !(p.1 == k))

/-- Insert or overwrite a key (Python `dict[k] = v`). -/
def insertA {α : Type} (m : List (String × α)) (k : String) (v : α) :
    List (String × α) :=
  eraseA m k ++ [(k, v)]

/-- The `.llm_session` sidecar record as written by `after_request` and
`handle_set_project_root` (server.py lines 480-486 and 520-523): only the
project root and the conversation history, never pending modifications. -/
structure SidecarData where
  project_root : String
  conversation_history : List String
deriving DecidableEq, Repr

/-- The per-client Flask session state used by the core routes. -/
structure Session where
  project_root : Option String
  conversation_history : List String
  pending_modifications : List (String × String)
deriving DecidableEq, Repr

/-- The ambient world: the working directory, the directories and text files
that exist, and the `.llm_session` sidecar store keyed by project root. -/
structure World where
  cwd : String
  dirs : List String
  files : List (String × String)
  sidecars : List (String × SidecarData)
deriving DecidableEq, Repr

/-- `os.path.isdir`. -/
def isdir (w : World) (p : String) : Bool := w.dirs.contains p

/-- `os.path.isfile`. -/
def isfile (w : World) (p : String) : Bool := (lookupA w.files p).isSome

/-- `load_session_data` (server.py lines 420-444): a missing, empty, or
malformed sidecar yields no data (the caller falls back to empty history). -/
def load_session_data (w : World) (root : String) : Option SidecarData :=
  lookupA w.sidecars root

/-- `save_session_data` (server.py lines 446-455): whole-record overwrite of
the sidecar for `root`, with `project_root` forced to `root`. -/
def save_session_data (w : World) (root : String) (d : SidecarData) : World :=
  { w with sidecars := insertA w.sidecars root { d with project_root := root } }

/-- `handle_set_project_root` (server.py lines 491-529): validate the
directory, load the sidecar (missing data → empty history), bind the root,
reset `pending_modifications` to `{}`, and immediately persist
`{conversation_history, project_root}`.  Returns the new world, the new
session, and the HTTP status. -/
def handle_set_project_root (w : World) (s : Session) (new_root : String) :
    World × Session × Nat :=
  let abs := abspath w.cwd new_root
  if isdir w abs then
    let hist := ((load_session_data w abs).map (·.conversation_history)).getD []
    (save_session_data w abs ⟨abs, hist⟩, ⟨some abs, hist, []⟩, 200)
  else (w, s, 400)

/-- `after_request` (server.py lines 474-487): after every request, if a
valid project root is bound, persist only the conversation history and the
root ("Do NOT save pending_modifications here"). -/
def after_request (w : World) (s : Session) : World :=
  match s.project_root with
  | some root =>
    if isdir w root then
      save_session_data w root ⟨root, s.conversation_history⟩
    else w
  | none => w

/-- `handle_chat` (server.py lines 997-1076), abstracted over the backend:
requires a bound root and a non-empty message, calls `generate_content`, and
on a non-`None` result appends the user message and the reply to the
conversation history.  (The prompt text built from instructions and limited
history does not affect the session state.) -/
def handle_chat (s : Session) (backend : Nat → GenAttempt) (message : String) :
    Session × Nat :=
  match s.project_root with
  | none => (s, 400)
  | some _ =>
    if message = "" then (s, 400)
    else
      match (generate_content backend).result with
      | none => (s, 500)
      | some reply =>
        ({ s with conversation_history := s.conversation_history ++ [message, reply] }, 200)

/-- A `/set_project_root` request as Flask executes it: the route handler
followed by the `after_request` hook. -/
def setRootRequest (w : World) (s : Session) (new_root : String) :
    World × Session × Nat :=
  let r := handle_set_project_root w s new_root
  (after_request r.1 r.2.1, r.2.1, r.2.2)

/-- A `/chat` request as Flask executes it: the route handler followed by
the `after_request` hook. -/
def chatRequest (w : World) (s : Session) (backend : Nat → GenAttempt)
    (message : String) : World × Session × Nat :=
  let r := handle_chat s backend message
  (after_request w r.1, r.1, r.2)

/-- `handle_modify` (server.py lines 657-762), abstracted over the backend,
the success of `create_diff_file` (`diffOk`), and the success of
`open_in_editor` (`editorOk`): validate the path and that the file exists,
call `generate_content`; a `None` result is a 500 with the session
untouched; any non-`None` string — including the `"Error: ..."` block and
abnormal-finish messages, which the code only checks against `None` — is
diffed against the original and stored into `pending_modifications`.  An
editor failure after storing pops the entry back out (lines 740-745). -/
def handle_modify (w : World) (s : Session) (backend : Nat → GenAttempt)
    (filepath : String) (diffOk editorOk : Bool) : Session × Nat :=
  match s.project_root with
  | none => (s, 400)
  | some root =>
    if filepath = "" then (s, 400)
    else
      match get_safe_path w.cwd root filepath with
      | none => (s, 400)
      | some target =>
        if isfile w target then
          match (generate_content backend).result with
          | none => (s, 500)
          | some modified =>
            if diffOk then
              let s' := { s with
                pending_modifications := insertA s.pending_modifications filepath modified }
              if editorOk then (s', 200)
              else ({ s' with
                pending_modifications := eraseA s'.pending_modifications filepath }, 500)
            else (s, 500)
        else (s, 400)

/-- `handle_confirm_modify` (server.py lines 764-816), abstracted over
whether `write_file` succeeds (`writeOk`): no pending entry → 404; path
re-validation failure → drop the pending entry, 404; successful write →
write the file, drop the pending entry, 200; failed write → 500 with the
pending entry deliberately retained ("Do NOT remove from session if write
failed, user might want to retry"). -/
def handle_confirm_modify (w : World) (s : Session) (filepath : String)
    (writeOk : Bool) : World × Session × Nat :=
  match s.project_root with
  | none => (w, s, 400)
  | some root =>
    match lookupA s.pending_modifications filepath with
    | none => (w, s, 404)
    | some content =>
      match get_safe_path w.cwd root filepath with
      | none =>
        (w, { s with pending_modifications := eraseA s.pending_modifications filepath }, 404)
      | some target =>
        if isfile w target then
          if writeOk then
            ({ w with files := insertA w.files target content },
             { s with pending_modifications := eraseA s.pending_modifications filepath },
             200)
          else (w, s, 500)
        else
          (w, { s with pending_modifications := eraseA s.pending_modifications filepath }, 404)

/-! The diff engine `create_diff_file` (server.py lines 236-315). -/

/-- The external `diff -u` utility at the boundary given in the spec:
`run original modified labelA labelB` yields the process exit code and the
stdout text (exit 0 and empty output when the inputs are identical, exit 1
and a labelled unified diff when they differ, exit above 1 on error). -/
structure DiffUtil where
  run : String → String → String → String → Nat × String

/-- Fault injection for the primitive steps of `create_diff_file`, in the
order the code performs them: creating and writing the two temp input files,
creating the diff output temp file, and running the diff process. -/
structure DiffFaults where
  createOrigOk : Bool
  createModOk : Bool
  writeOrigOk : Bool
  writeModOk : Bool
  createDiffOk : Bool
  runOk : Bool
deriving DecidableEq, Repr

/-- How `create_diff_file` finished: a normal Python return (the diff file
path and its content, or `None`), or an exception escaping the function. -/
inductive DiffReturn where
  | ok (res : Option (String × String))
  | raised
deriving DecidableEq, Repr

/-- The observable outcome of one `create_diff_file` execution: how it
finished and which temporary files are still on disk afterwards. -/
structure DiffExecState where
  ret : DiffReturn
  tempsLeft : List String
deriving DecidableEq, Repr

def tmpOrig : String := "tmp_original"
def tmpMod : String := "tmp_modified"
def tmpDiff : String := "tmp_diff"

/-- `create_diff_file` (server.py lines 236-315) with fault injection.
Faithful control flow:

* The two input temp files are created with `delete=False` and written, and
  their names are bound to `original_file_path`/`modified_file_path` only
  after both writes; if any of these four steps raises, the
  `except Exception` clause returns `None`, but the `finally` block then
  reads `original_file_path`, which was never assigned — a `NameError`
  escapes and the already-created temp files are never removed.
* A failure creating the diff temp file, a diff process exception, or a
  diff exit code above 1 all yield `None`, with the diff temp file (if any)
  removed in the handler and the two input temp files removed in `finally`.
* Otherwise (exit code 0 or 1) the diff file path is returned with the
  process stdout as its content, and `finally` removes the two inputs. -/
def create_diff_file (util : DiffUtil) (f : DiffFaults)
    (original modified la lb : String) : DiffExecState :=
  if !f.createOrigOk then ⟨.raised, []⟩
  else if !f.createModOk then ⟨.raised, [tmpOrig]⟩
  else if !f.writeOrigOk then ⟨.raised, [tmpOrig, tmpMod]⟩
  else if !f.writeModOk then ⟨.raised, [tmpOrig, tmpMod]⟩
  else if !f.createDiffOk then ⟨.ok none, []⟩
  else if !f.runOk then ⟨.ok none, []⟩
  else
    let r := util.run original modified la lb
    if r.1 > 1 then ⟨.ok none, []⟩
    else ⟨.ok (some (tmpDiff, r.2)), [tmpDiff]⟩

/-- No fault injected: every primitive step succeeds. -/
def noFaults : DiffFaults := ⟨true, true, true, true, true, true⟩

/-- A concrete executable model of `diff -u -L la -L lb`: exit 0 and empty
output on identical inputs, exit 1 with a labelled header and a naive
whole-text hunk otherwise. -/
def simpleDiffRun (a b la lb : String) : Nat × String :=
  if a = b then (0, "")
  else (1, "--- " ++ (la ++ ("\n+++ " ++ (lb ++ ("\n-" ++ (a ++ ("\n+" ++ b)))))))

def simpleDiff : DiffUtil := ⟨simpleDiffRun⟩

/-- `needle` occurs as a contiguous substring of `hay`. -/
def SubstrOf (needle hay : String) : Prop :=
  ∃ pre suf : List Char, hay.data = pre ++ needle.data ++ suf

/-! Concrete test fixtures used by witnesses and counterexamples. -/

/-- A world whose root `/p` contains one file `a.txt` with content `hello`. -/
def wFix : World := ⟨"/", ["/p"], [("/p/a.txt", "hello")], []⟩

/-- A session bound to `/p` with nothing pending. -/
def sClean : Session := ⟨some "/p", [], []⟩

/-- A session bound to `/p` with a pending modification for `a.txt`. -/
def sPend : Session := ⟨some "/p", [], [("a.txt", "new")]⟩

/-! Theorems settling the claims. -/

/-- Helper: looking up the key just inserted finds the inserted value. -/
theorem lookupA_insertA {α : Type} (m : List (String × α)) (k : String) (v : α) :
    lookupA (insertA m k v) k = some v := by
  induction m with
  | nil => simp [insertA, eraseA, lookupA]
  | cons hd tl ih =>
    by_cases h : hd.1 = k
    · simpa [insertA, eraseA, List.filter_cons, h] using ih
    · simpa [insertA, eraseA, List.filter_cons, h, lookupA] using ih

/-- C1 (code_bug evidence): the containment test in `_get_safe_path` is a
bare `startswith` of the canonical root string, so for root `/tmp/proj` the
relative path `../proj2` resolves to `/tmp/proj2` — accepted, yet it is
neither the root itself nor a descendant of it (it does not extend the root
with a path separator), contradicting the claimed sandbox containment. -/
theorem get_safe_path_prefix_escape :
    get_safe_path "/" "/tmp/proj" "../proj2" = some "/tmp/proj2" ∧
    "/tmp/proj2" ≠ "/tmp/proj" ∧
    ("/tmp/proj/".data.isPrefixOf "/tmp/proj2".data) = false := by
  decide

/-- C2 (code_bug evidence): a `/modify` request on existing file `a.txt`
whose backend call is blocked by the safety filter does not fail: because
`generate_content` surfaces the block as an `"Error: ..."` string and
`handle_modify` only tests the result against `None`, the handler stores
that error message as the pending modification for `a.txt` and reports
success — the state does not remain Clean. -/
theorem modify_stores_block_message_as_pending :
    handle_modify wFix sClean (fun _ => GenAttempt.blocked "SAFETY") "a.txt" true true
      = (⟨some "/p", [], [("a.txt", blockMessage "SAFETY")]⟩, 200) := by
  decide

/-- C3 (code_bug evidence): a backend block on the first attempt is indeed
never retried — exactly one call is made — but the outcome is delivered as
`some (blockMessage ...)` through the ordinary success channel of
`generate_content` (its `Optional[str]` return), not as a failure value
distinguishable from generated text; callers test only for `None`. -/
theorem generate_block_single_call_success_channel :
    generate_content (fun _ => GenAttempt.blocked "SAFETY") =
      { result := some (blockMessage "SAFETY"), calls := 1, sleeps := 0 } := rfl

/-- C4 (counterexample): with a backend that always returns the ambiguous
empty response, `generate_content` does make exactly 3 calls and returns
`None`, but no sleep at all occurs between the attempts (`time.sleep(1)`
lives only in the exception handler), refuting the claimed fixed
1-time-unit delay between attempts (which would total 2 units here). -/
theorem generate_all_empty_calls_without_delay :
    (generate_content (fun _ => GenAttempt.emptyResp)).result = none ∧
    (generate_content (fun _ => GenAttempt.emptyResp)).calls = 3 ∧
    ¬ (generate_content (fun _ => GenAttempt.emptyResp)).sleeps = 2 := by
  decide

/-- Helper: an empty-response attempt consumes one retry, makes one call,
and does not sleep. -/
theorem generateAux_empty_step (backend : Nat → GenAttempt) (r c s : Nat)
    (h : backend c = GenAttempt.emptyResp) :
    generateAux backend (r + 1) c s = generateAux backend r (c + 1) s := by
  rw [generateAux, h]

/-- C4 (amended): for every backend that returns the ambiguous empty
response on every attempt, `generate_content` calls the backend exactly 3
times and then returns the retries-exhausted failure `none`, with no delay
between attempts (the 1-unit delay applies only to attempts that raise). -/
theorem generate_retry_bound (backend : Nat → GenAttempt)
    (h : ∀ i, backend i = GenAttempt.emptyResp) :
    generate_content backend = { result := none, calls := 3, sleeps := 0 } := by
  show generateAux backend (2 + 1) 0 0 = _
  rw [generateAux_empty_step backend 2 0 0 (h 0)]
  show generateAux backend (1 + 1) 1 0 = _
  rw [generateAux_empty_step backend 1 1 0 (h 1)]
  show generateAux backend (0 + 1) 2 0 = _
  rw [generateAux_empty_step backend 0 2 0 (h 2)]
  rfl

/-- Witness for C4's amended theorem at a concrete always-empty backend. -/
theorem generate_retry_bound_witness :
    (∀ i : Nat, (fun _ : Nat => GenAttempt.emptyResp) i = GenAttempt.emptyResp) ∧
    generate_content (fun _ : Nat => GenAttempt.emptyResp)
      = { result := none, calls := 3, sleeps := 0 } :=
  ⟨fun _ => rfl, generate_retry_bound (fun _ => GenAttempt.emptyResp) (fun _ => rfl)⟩

/-- C8 (code_bug evidence): if writing the original content to its temp
file raises (e.g. disk full), the `except` clause runs but the `finally`
block reads `original_file_path`, a variable that is only assigned after
both writes — a `NameError` escapes `create_diff_file` and both already
created temp input files are left on disk, never released. -/
theorem create_diff_file_leaks_on_write_exception :
    create_diff_file simpleDiff ⟨true, true, false, true, true, true⟩ "a" "b" "L1" "L2"
      = ⟨DiffReturn.raised, [tmpOrig, tmpMod]⟩ := rfl

/-- C10 (confirmed): a confirm whose sandbox re-validation succeeds (the
path resolves and the file still exists) but whose write fails leaves the
whole session — in particular the pending entry for the path — and the
filesystem exactly as they were, and reports a 500 failure, so the confirm
can be retried. -/
theorem confirm_write_failure_retains_pending
    (w : World) (s : Session) (filepath root target content : String)
    (hroot : s.project_root = some root)
    (hpend : lookupA s.pending_modifications filepath = some content)
    (hsafe : get_safe_path w.cwd root filepath = some target)
    (hfile : isfile w target = true) :
    handle_confirm_modify w s filepath false = (w, s, 500) := by
  simp [handle_confirm_modify, hroot, hpend, hsafe, hfile]

/-- Witness for C10 at a concrete world and session. -/
theorem confirm_write_failure_retains_pending_witness :
    sPend.project_root = some "/p" ∧
    lookupA sPend.pending_modifications "a.txt" = some "new" ∧
    get_safe_path wFix.cwd "/p" "a.txt" = some "/p/a.txt" ∧
    isfile wFix "/p/a.txt" = true ∧
    handle_confirm_modify wFix sPend "a.txt" false = (wFix, sPend, 500) :=
  ⟨rfl, by decide, by decide, by decide,
    confirm_write_failure_retains_pending wFix sPend "a.txt" "/p" "/p/a.txt" "new"
      rfl (by decide) (by decide) (by decide)⟩

/-- C7 (confirmed): activating a project root resets the
`pending_modifications` map to empty, and the sidecar record written by
`after_request` is independent of `pending_modifications` (the persisted
`SidecarData` carries only the root and the conversation history), so no
pending modification survives a re-activation or a restart. -/
theorem set_root_resets_pending_and_sidecar_omits_pending
    (w : World) (s : Session) (root : String) (p : List (String × String))
    (h : isdir w (abspath w.cwd root) = true) :
    (handle_set_project_root w s root).2.1.pending_modifications = [] ∧
    after_request w { s with pending_modifications := p } = after_request w s := by
  refine ⟨?_, ?_⟩
  · simp [handle_set_project_root, h]
  · cases hs : s.project_root with
    | none => simp [after_request, hs]
    | some r => simp [after_request, hs]

/-- Witness for C7 at a concrete world, session, and root. -/
theorem set_root_resets_pending_witness :
    isdir wFix (abspath wFix.cwd "/p") = true ∧
    ((handle_set_project_root wFix sPend "/p").2.1.pending_modifications = [] ∧
     after_request wFix { sPend with pending_modifications := [("x", "y")] }
       = after_request wFix sPend) :=
  ⟨by decide,
    set_root_resets_pending_and_sidecar_omits_pending wFix sPend "/p" [("x", "y")]
      (by decide)⟩

/-- C9 (confirmed): activating a fresh root (no sidecar yet), recording one
chat exchange (two conversation turns), persisting via the `after_request`
hook, and then activating the same root in a fresh session restores exactly
those two turns into the session's conversation history. -/
theorem persistence_round_trip
    (w : World) (root msg reply : String) (backend : Nat → GenAttempt)
    (hdir : isdir w (abspath w.cwd root) = true)
    (hfresh : load_session_data w (abspath w.cwd root) = none)
    (hb : backend 0 = GenAttempt.text reply)
    (hmsg : ¬ msg = "") :
    ((setRootRequest
        (chatRequest (setRootRequest w ⟨none, [], []⟩ root).1
          (setRootRequest w ⟨none, [], []⟩ root).2.1 backend msg).1
        ⟨none, [], []⟩ root).2.1).conversation_history = [msg, sanitize reply] := by
  have hgen : generate_content backend = ⟨some (sanitize reply), 1, 0⟩ := by
    show generateAux backend (2 + 1) 0 0 = _
    rw [generateAux, hb]
  have hmem : abspath w.cwd root ∈ w.dirs := by simpa [isdir] using hdir
  have hfresh' : lookupA w.sidecars (abspath w.cwd root) = none := hfresh
  simp [setRootRequest, chatRequest, handle_set_project_root, after_request,
    handle_chat, save_session_data, load_session_data, isdir, hmem, hfresh',
    hgen, hmsg, lookupA_insertA]

/-- Witness for C9 at a concrete world, root, message, and backend. -/
theorem persistence_round_trip_witness :
    isdir wFix (abspath wFix.cwd "/p") = true ∧
    load_session_data wFix (abspath wFix.cwd "/p") = none ∧
    (fun _ : Nat => GenAttempt.text "yo") 0 = GenAttempt.text "yo" ∧
    ¬ ("hi" : String) = "" ∧
    ((setRootRequest
        (chatRequest (setRootRequest wFix ⟨none, [], []⟩ "/p").1
          (setRootRequest wFix ⟨none, [], []⟩ "/p").2.1
          (fun _ => GenAttempt.text "yo") "hi").1
        ⟨none, [], []⟩ "/p").2.1).conversation_history = ["hi", sanitize "yo"] :=
  ⟨by decide, by decide, rfl, by decide,
    persistence_round_trip wFix "/p" "hi" "yo" (fun _ => GenAttempt.text "yo")
      (by decide) (by decide) rfl (by decide)⟩

/-- Helper: two strings are equal iff their character lists are. -/
theorem strEq_iff_data (a b : String) : a = b ↔ a.data = b.data :=
  ⟨congrArg String.data, fun h => by cases a; cases b; cases h; rfl⟩

/-- Helper: the concrete diff model on identical inputs. -/
theorem simpleDiff_run_self (a la lb : String) : simpleDiffRun a a la lb = (0, "") := by
  simp [simpleDiffRun]

/-- Helper: the concrete diff model on different inputs exits 1 with a
non-empty output containing both labels. -/
theorem simpleDiff_run_ne (a b la lb : String) (h : a ≠ b) :
    (simpleDiffRun a b la lb).1 = 1 ∧ (simpleDiffRun a b la lb).2 ≠ "" ∧
    SubstrOf la (simpleDiffRun a b la lb).2 ∧ SubstrOf lb (simpleDiffRun a b la lb).2 := by
  refine ⟨by simp [simpleDiffRun, h], ?_, ?_, ?_⟩
  · intro hc
    have hd := congrArg String.data hc
    simp [simpleDiffRun, h, String.data_append] at hd
  · exact ⟨"--- ".data, ("\n+++ " ++ (lb ++ ("\n-" ++ (a ++ ("\n+" ++ b))))).data,
      by simp [simpleDiffRun, h, String.data_append, List.append_assoc]⟩
  · exact ⟨("--- " ++ (la ++ "\n+++ ")).data, ("\n-" ++ (a ++ ("\n+" ++ b))).data,
      by simp [simpleDiffRun, h, String.data_append, List.append_assoc]⟩

/-- C6 (counterexample): when the two inputs are identical, `diff` exits 0
having written nothing, and `create_diff_file` returns the diff file path
anyway — the caller receives a file whose content is the empty string, not
an explicit "no differences" result. -/
theorem diff_identical_inputs_empty_file :
    create_diff_file simpleDiff noFaults "same" "same" "L1" "L2"
      = ⟨DiffReturn.ok (some (tmpDiff, "")), [tmpDiff]⟩ := by decide

/-- C6 (amended): under the documented contract of the external diff
utility, `create_diff_file` on identical inputs succeeds but yields a diff
file with empty content, and on different inputs yields a diff file whose
content is a non-empty unified diff containing both supplied labels. -/
theorem create_diff_file_spec (util : DiffUtil)
    (hEq : ∀ a la lb, util.run a a la lb = (0, ""))
    (hNe : ∀ a b la lb, a ≠ b → (util.run a b la lb).1 = 1 ∧ (util.run a b la lb).2 ≠ "" ∧
      SubstrOf la (util.run a b la lb).2 ∧ SubstrOf lb (util.run a b la lb).2)
    (a b la lb : String) :
    (a = b → create_diff_file util noFaults a b la lb
        = ⟨DiffReturn.ok (some (tmpDiff, "")), [tmpDiff]⟩) ∧
    (a ≠ b → ∃ out, create_diff_file util noFaults a b la lb
        = ⟨DiffReturn.ok (some (tmpDiff, out)), [tmpDiff]⟩ ∧
        out ≠ "" ∧ SubstrOf la out ∧ SubstrOf lb out) := by
  constructor
  · intro h; subst h
    simp [create_diff_file, noFaults, hEq a la lb]
  · intro h
    obtain ⟨h1, h2, h3, h4⟩ := hNe a b la lb h
    refine ⟨(util.run a b la lb).2, ?_, h2, h3, h4⟩
    simp [create_diff_file, noFaults, h1]

/-- Witness for C6's amended theorem at the concrete diff model and a pair
of different inputs. -/
theorem create_diff_file_spec_witness :
    ("x" : String) ≠ "y" ∧
    (∃ out, create_diff_file simpleDiff noFaults "x" "y" "A" "B"
        = ⟨DiffReturn.ok (some (tmpDiff, out)), [tmpDiff]⟩ ∧
        out ≠ "" ∧ SubstrOf "A" out ∧ SubstrOf "B" out) :=
  ⟨by decide,
    (create_diff_file_spec simpleDiff simpleDiff_run_self
      (fun a b la lb h => simpleDiff_run_ne a b la lb h) "x" "y" "A" "B").2 (by decide)⟩

/-- Helper: splitting a separator-free list yields that single piece. -/
theorem splitChar_no_sep (c : Char) (l : List Char) (h : c ∉ l) :
    splitChar c l = [l] := by
  induction l with
  | nil => rfl
  | cons x xs ih =>
    have hx : ¬ x = c := fun hxc => h (hxc ▸ List.mem_cons_self x xs)
    have hxs : c ∉ xs := fun hm => h (List.mem_cons_of_mem x hm)
    rw [splitChar, if_neg hx, ih hxs]

/-- Helper: splitting past a separator-free piece peels it off. -/
theorem splitChar_append_sep (c : Char) (a rest : List Char) (h : c ∉ a) :
    splitChar c (a ++ c :: rest) = a :: splitChar c rest := by
  induction a with
  | nil => simp [splitChar]
  | cons x xs ih =>
    have hx : ¬ x = c := fun hxc => h (hxc ▸ List.mem_cons_self x xs)
    have hxs : c ∉ xs := fun hm => h (List.mem_cons_of_mem x hm)
    rw [List.cons_append, splitChar, if_neg hx, ih hxs]

/-- Helper: unfolding one step of a one-character intercalation. -/
theorem intercalate_char_cons (c : Char) (a : List Char) (tl : List (List Char))
    (h : tl ≠ []) :
    List.intercalate [c] (a :: tl) = a ++ c :: List.intercalate [c] tl := by
  cases tl with
  | nil => exact absurd rfl h
  | cons b tl2 =>
    simp [List.intercalate, List.intersperse_cons_cons]

/-- Helper: splitting on a separator is a left inverse of joining with it,
provided no piece contains the separator. -/
theorem splitChar_intercalate (c : Char) (ls : List (List Char)) (hne : ls ≠ [])
    (h : ∀ l ∈ ls, c ∉ l) :
    splitChar c (List.intercalate [c] ls) = ls := by
  induction ls with
  | nil => exact absurd rfl hne
  | cons a tl ih =>
    cases tl with
    | nil =>
      simp only [List.intercalate, List.intersperse, List.flatten]
      rw [List.append_nil]
      exact splitChar_no_sep c a (h a (List.mem_cons_self a []))
    | cons b tl2 =>
      rw [intercalate_char_cons c a (b :: tl2) (by simp)]
      rw [splitChar_append_sep c a _ (h a (List.mem_cons_self a _))]
      rw [ih (by simp) (fun l hl => h l (List.mem_cons_of_mem a hl))]

/-- Helper: `dropWhile` is the identity when the head fails the test. -/
theorem dropWhile_eq_self_of_head (p : Char → Bool) (l : List Char)
    (h : ∀ x, l.head? = some x → p x = false) : l.dropWhile p = l := by
  cases l with
  | nil => rfl
  | cons x xs => simp [List.dropWhile_cons, h x rfl]

/-- Helper: stripping is the identity when neither end is whitespace. -/
theorem pyStripL_eq_self (l : List Char)
    (hh : ∀ x, l.head? = some x → isPyWS x = false)
    (hl : ∀ x, l.getLast? = some x → isPyWS x = false) :
    pyStripL l = l := by
  unfold pyStripL
  rw [dropWhile_eq_self_of_head isPyWS l hh]
  rw [dropWhile_eq_self_of_head isPyWS l.reverse
    (fun x hx => hl x (by rwa [List.head?_reverse] at hx))]
  exact List.reverse_reverse l

/-- Helper: an intercalation ending in piece `d` has `d` as a suffix. -/
theorem intercalate_char_last (c : Char) (ls : List (List Char)) (d : List Char) :
    ∃ Y : List Char, List.intercalate [c] (ls ++ [d]) = Y ++ d := by
  induction ls with
  | nil =>
    refine ⟨[], ?_⟩
    simp [List.intercalate, List.intersperse]
  | cons a tl ih =>
    obtain ⟨Y, hY⟩ := ih
    refine ⟨a ++ c :: Y, ?_⟩
    rw [List.cons_append, intercalate_char_cons c a (tl ++ [d]) (by simp), hY]
    simp

/-- C5 (counterexample): sanitization is not the identity on unfenced text —
`" hello"` contains no code fence, yet sanitizing it strips the leading
whitespace and returns `"hello"`, not the text unchanged. -/
theorem sanitize_changes_unfenced_text :
    sanitize " hello" = "hello" ∧ sanitize " hello" ≠ " hello" := by decide

/-- C5 (amended): sanitization first strips surrounding whitespace.  Text
that after stripping is not wrapped in fences is returned in stripped form —
in particular, text with no surrounding whitespace and no wrapping fence is
returned unchanged.  Text assembled from a fence-opening first line (with
optional language tag), middle lines, and a closing fence line has exactly
its first and last lines removed, leaving the inner content intact. -/
theorem sanitize_spec :
    (∀ t : String,
      (fenceL.isPrefixOf (pyStripL t.data) && fenceL.isSuffixOf (pyStripL t.data)) = false →
      sanitize t = pyStrip t) ∧
    (∀ t : String,
      (∀ x, t.data.head? = some x → isPyWS x = false) →
      (∀ x, t.data.getLast? = some x → isPyWS x = false) →
      (fenceL.isPrefixOf t.data && fenceL.isSuffixOf t.data) = false →
      sanitize t = t) ∧
    (∀ (first : List Char) (mid : List (List Char)),
      fenceL.isPrefixOf first = true →
      (∀ l ∈ first :: mid, '\n' ∉ l) →
      sanitize ⟨List.intercalate ['\n'] ((first :: mid) ++ [fenceL])⟩
        = ⟨List.intercalate ['\n'] mid⟩) := by
  refine ⟨?_, ?_, ?_⟩
  · intro t h
    simp [sanitize, pyStrip, h]
  · intro t hh hl h
    have hs : pyStripL t.data = t.data := pyStripL_eq_self t.data hh hl
    simp [sanitize, hs, h]
  · intro first mid hpre hnl
    obtain ⟨rest, hfirst⟩ := List.isPrefixOf_iff_prefix.mp hpre
    have hfirst_cons : first = '\x60' :: ("\x60\x60".data ++ rest) := by
      rw [← hfirst]; rfl
    obtain ⟨Y, hY⟩ := intercalate_char_last '\n' (first :: mid) fenceL
    have hL : List.intercalate ['\n'] ((first :: mid) ++ [fenceL])
        = first ++ '\n' :: List.intercalate ['\n'] (mid ++ [fenceL]) := by
      rw [List.cons_append, intercalate_char_cons '\n' first (mid ++ [fenceL]) (by simp)]
    have hhead : ∀ x, (List.intercalate ['\n'] ((first :: mid) ++ [fenceL])).head? = some x →
        isPyWS x = false := by
      intro x hx
      rw [hL, hfirst_cons] at hx
      simp at hx
      rw [← hx]
      decide
    have hlast : ∀ x, (List.intercalate ['\n'] ((first :: mid) ++ [fenceL])).getLast? = some x →
        isPyWS x = false := by
      intro x hx
      rw [hY] at hx
      rw [List.getLast?_append] at hx
      have hg : fenceL.getLast? = some '\x60' := by decide
      rw [hg] at hx
      simp at hx
      rw [← hx]
      decide
    have hstrip : pyStripL (List.intercalate ['\n'] ((first :: mid) ++ [fenceL]))
        = List.intercalate ['\n'] ((first :: mid) ++ [fenceL]) :=
      pyStripL_eq_self _ hhead hlast
    have hpre2 : fenceL.isPrefixOf (List.intercalate ['\n'] ((first :: mid) ++ [fenceL])) = true := by
      rw [List.isPrefixOf_iff_prefix]
      rw [hL]
      exact (List.isPrefixOf_iff_prefix.mp hpre).trans (List.prefix_append first _)
    have hsuf2 : fenceL.isSuffixOf (List.intercalate ['\n'] ((first :: mid) ++ [fenceL])) = true := by
      rw [List.isSuffixOf_iff_suffix, hY]
      exact List.suffix_append Y fenceL
    have hsplit : splitChar '\n' (List.intercalate ['\n'] ((first :: mid) ++ [fenceL]))
        = (first :: mid) ++ [fenceL] := by
      refine splitChar_intercalate '\n' _ (by simp) ?_
      intro l hl
      rcases List.mem_append.mp hl with hl1 | hl2
      · exact hnl l hl1
      · simp at hl2
        rw [hl2]
        decide
    simp only [sanitize]
    rw [hstrip, hpre2, hsuf2]
    simp only [Bool.and_self, if_true]
    rw [hsplit]
    have hlen : ((first :: mid) ++ [fenceL]).length > 1 := by
      simp only [List.length_append, List.length_cons, List.length_nil]
      omega
    rw [if_pos hlen]
    simp [joinChar, List.cons_append, List.dropLast_concat]

/-- Witness for C5's amended theorem: a fenced block with a language tag and
one inner line sanitizes to exactly that inner line. -/
theorem sanitize_spec_witness :
    fenceL.isPrefixOf "```py".data = true ∧
    (∀ l ∈ ("```py".data :: ["code line".data]), '\n' ∉ l) ∧
    sanitize ⟨List.intercalate ['\n'] (("```py".data :: ["code line".data]) ++ [fenceL])⟩
      = ⟨List.intercalate ['\n'] ["code line".data]⟩ :=
  ⟨by decide, by decide,
    sanitize_spec.2.2 "```py".data ["code line".data] (by decide) (by decide)⟩
